import Mathlib

/-!
# Verification of the monitor-switch-ddc platform-agnostic core

A shallow embedding in Lean 4 of the platform-agnostic core of the
`monitor-switch-ddc` repository: the configuration resolver
(`src/config.rs`), the command vocabulary and decoder
(`src/tray/commands.rs`), the inputs-table builder (`src/tray/common.rs`)
and the tray model state machine (`src/tray/model.rs`).

Machine integers (`u16`, `u32`) are modelled as `Nat`; command-id
arithmetic, which lives in `u16`, carries an explicit `% 65536` at the one
place the counter is incremented.  `HashMap<String, u16>` is modelled as an
association list whose key list is duplicate-free (the Rust `HashMap`
guarantees this); since every observation the code makes of such a map is
order-insensitive (lookup, or sorting before use), theorems carry explicit
`Nodup` hypotheses where the list order could otherwise matter.
Fallible operations (`anyhow::Result`) are modelled with `Except String`,
an error being its rendered message; the `anyhow` `.context(msg)` wrapping
renders (via `to_string`) as just the outermost context message, which
`with_context` mirrors.  Effectful collaborators (config file, backend,
`StartupManager`) are modelled by an explicit environment of outcomes and
an explicit OS autostart state threaded through the operations that touch
it.
-/

/-! ## String helpers (Rust `str` operations used by the core) -/

/-- Byte/char equality driven prefix test: `n` is a prefix of `h`.
Models the prefix step of Rust `str::contains`. -/
def prefixCheck : List Char → List Char → Bool
  | [], _ => true
  | _ :: _, [] => false
  | a :: as, b :: bs => a == b && prefixCheck as bs

/-- `containsSeq n h`: the char sequence `n` occurs contiguously in `h`.
Models Rust `str::contains` (substring search; the empty needle matches). -/
def containsSeq (n : List Char) : List Char → Bool
  | [] => prefixCheck n []
  | a :: t => prefixCheck n (a :: t) || containsSeq n t

/-- Rust `haystack.contains(needle)` on strings. -/
def strContainsSub (haystack needle : String) : Bool :=
  containsSeq needle.data haystack.data

/-- Rust `u8::to_ascii_lowercase` lifted to chars: maps `A`–`Z` to
`a`–`z`, leaves everything else alone. -/
def asciiLowerChar (c : Char) : Char :=
  if 65 ≤ c.toNat ∧ c.toNat ≤ 90 then Char.ofNat (c.toNat + 32) else c

/-- Rust `str::to_ascii_lowercase`. -/
def asciiLower (s : String) : String :=
  ⟨s.data.map asciiLowerChar⟩

/-- Lexicographic (codepoint order) comparison of char sequences; this is
the order that `Ord for str` in Rust induces (UTF-8 byte order coincides with
codepoint order). -/
def charListLe : List Char → List Char → Bool
  | [], _ => true
  | _ :: _, [] => false
  | a :: as, b :: bs =>
    if a.toNat < b.toNat then true
    else if b.toNat < a.toNat then false
    else charListLe as bs

/-- `a <= b` in the Rust string order (`a.cmp(&b) != Greater`). -/
def strLe (a b : String) : Bool :=
  charListLe a.data b.data

/-- A single-quote character, used when rendering error messages
(written via its code point). -/
def squote : String :=
  String.singleton (Char.ofNat 39)

/-- The `anyhow` `.context(msg)` wrapping: `Display` (hence `to_string`,
which is what the tray model stores) shows only the outermost context
message. -/
def with_context (msg : String) (_cause : String) : String :=
  msg

/-! ## Data model (`src/platform.rs`, `src/config.rs`) -/

/-- `platform::DisplayInfo`: one enumerated monitor. -/
structure DisplayInfo where
  index : Nat
  product_name : Option String
  system_uuid : Option String
deriving DecidableEq, Repr

/-- A `HashMap<String, u16>`, as an association list (see module comment). -/
abbrev StrMap := List (String × Nat)

/-- `config::MonitorMatch`. -/
structure MonitorMatch where
  contains : Option String
  index : Option Nat
deriving DecidableEq, Repr

/-- `config::MonitorConfig` (the source field is `r#match`). -/
structure MonitorConfig where
  r_match : MonitorMatch
  display : Option String
  inputs : StrMap
deriving DecidableEq, Repr

/-- `config::Config`. -/
structure Config where
  start_with_windows : Option Bool
  default_display : Option String
  inputs : StrMap
  monitors : List MonitorConfig
deriving DecidableEq, Repr

/-- `config::ResolvedConfig`. -/
structure ResolvedConfig where
  display_selector : String
  inputs : StrMap
deriving DecidableEq, Repr

/-- `HashMap::insert`: replace any existing binding of `k`, else add one.
(The list position of the binding is immaterial: a `HashMap` is unordered.) -/
def mapInsert (m : StrMap) (k : String) (v : Nat) : StrMap :=
  (m.filter fun p => p.1 != k) ++ [(k, v)]

/-- Inserting every binding of `l` into `base` (the `extend`/insert loops
of `resolve`). -/
def mapExtendInsert (base : StrMap) (l : StrMap) : StrMap :=
  l.foldl (fun acc p => mapInsert acc p.1 p.2) base

/-! ## Configuration resolver (`src/config.rs`) -/

/-- `config::selector_for_display`. -/
def selector_for_display (d : DisplayInfo) : String :=
  match d.system_uuid with
  | some uuid => "uuid:" ++ uuid
  | none => toString d.index

/-- `config::match_display`: `match.index` is tried first (exact equality,
and if it is present `contains` is never consulted); otherwise
`match.contains` is a case-insensitive substring test against
`product_name` (absent name treated as the empty string). -/
def match_display (mon_cfg : MonitorConfig) (displays : List DisplayInfo) :
    Option (DisplayInfo × String) :=
  match mon_cfg.r_match.index with
  | some idx =>
    (displays.find? fun d => d.index == idx).map fun d => (d, selector_for_display d)
  | none =>
    match mon_cfg.r_match.contains with
    | none => none
    | some needle =>
      let needle_lc := asciiLower needle
      (displays.find? fun d =>
          strContainsSub (asciiLower ((d.product_name).getD "")) needle_lc).map
        fun d => (d, selector_for_display d)

/-- The `for mon_cfg in &cfg.monitors { ... break }` loop of
`config::resolve`: the first rule (in list order) for which
`match_display` succeeds, together with its match result. -/
def firstRuleMatch (monitors : List MonitorConfig) (displays : List DisplayInfo) :
    Option (MonitorConfig × DisplayInfo × String) :=
  match monitors with
  | [] => none
  | m :: rest =>
    match match_display m displays with
    | some (d, sel) => some (m, d, sel)
    | none => firstRuleMatch rest displays

/-- `config::resolve`. -/
def resolve (config : Option Config) (displays : List DisplayInfo)
    (display_arg : Option String) : ResolvedConfig :=
  match config with
  | none => { display_selector := display_arg.getD "1", inputs := [] }
  | some cfg =>
    let inputs := mapExtendInsert [] cfg.inputs
    let sel :=
      match display_arg with
      | some s => some s
      | none => cfg.default_display
    match sel with
    | some s => { display_selector := s, inputs := inputs }
    | none =>
      match firstRuleMatch cfg.monitors displays with
      | none => { display_selector := "1", inputs := inputs }
      | some (m, _d, inferred) =>
        { display_selector := m.display.getD inferred,
          inputs := mapExtendInsert inputs m.inputs }

/-! ## Command vocabulary and decoder (`src/tray/commands.rs`) -/

def CMD_BASE_INPUT : Nat := 2000

def CMD_RELOAD : Nat := 5000

def CMD_QUIT : Nat := 5001

def CMD_TOGGLE_STARTUP : Nat := 5002

def CMD_EDIT_CONFIG : Nat := 5003

def CMD_OPEN_CONFIG_FOLDER : Nat := 5004

/-- `commands::Command`. -/
inductive Command where
  | Input : Nat → Command
  | Reload : Command
  | Quit : Command
  | ToggleStartup : Command
  | EditConfig : Command
  | OpenConfigFolder : Command
deriving DecidableEq, Repr

/-- `commands::InputsMap` (`BTreeMap<u16, (String, u16)>`), as the list of
its entries in ascending key order (which is how the code builds it: ids
are assigned in increasing order, so insertion order is key order as long
as no `u16` wraparound occurs). -/
abbrev InputsTable := List (Nat × (String × Nat))

/-- `commands::decode`: the dynamic inputs table is consulted first, then
the five fixed action ids; anything else is `none`. -/
def decode (cmd_id : Nat) (inputs : InputsTable) : Option Command :=
  match List.lookup cmd_id inputs with
  | some (_name, value) => some (Command.Input value)
  | none =>
    if cmd_id = CMD_RELOAD then some Command.Reload
    else if cmd_id = CMD_QUIT then some Command.Quit
    else if cmd_id = CMD_TOGGLE_STARTUP then some Command.ToggleStartup
    else if cmd_id = CMD_EDIT_CONFIG then some Command.EditConfig
    else if cmd_id = CMD_OPEN_CONFIG_FOLDER then some Command.OpenConfigFolder
    else none

/-! ## Inputs-table construction (`src/tray/common.rs`) -/

/-- `common::default_inputs`: the hard-coded fallback table. -/
def default_inputs (base_cmd : Nat) : InputsTable :=
  [(base_cmd % 65536, ("dp1", 15)), ((base_cmd + 1) % 65536, ("usb_c", 26))]

/-- The id-assignment loop of `common::build_inputs`: `next_cmd` starts at
`base_cmd` and is incremented (`u16` arithmetic) once per entry. -/
def assignIds (base_cmd : Nat) : List (String × Nat) → InputsTable
  | [] => []
  | kv :: rest => (base_cmd % 65536, kv) :: assignIds (base_cmd + 1) rest

/-- The sort order used by `build_inputs` (`keys.sort_by(|a, b| a.0.cmp(&b.0))`). -/
def keyLe (a b : String × Nat) : Prop :=
  strLe a.1 b.1 = true

instance : DecidableRel keyLe :=
  fun a b => inferInstanceAs (Decidable (strLe a.1 b.1 = true))

/-- `common::build_inputs`: empty map falls back to `default_inputs`;
otherwise entries are sorted by name and given consecutive ids from
`base_cmd`. -/
def build_inputs (inputs : StrMap) (base_cmd : Nat) : InputsTable :=
  if inputs.isEmpty then default_inputs base_cmd
  else assignIds base_cmd (List.insertionSort keyLe inputs)

/-! ## Tray model (`src/tray/model.rs`, `src/tray/startup.rs`) -/

/-- The OS autostart state behind the `StartupManager` (registry `Run`
value / launch agent), together with injected failure outcomes for its two
operations. -/
structure StartupOS where
  autostart : Bool
  set_fail : Option String := none
  read_fail : Option String := none
deriving DecidableEq, Repr

namespace StartupManager

/-- `StartupManager::set_enabled`. -/
def set_enabled (os : StartupOS) (enabled : Bool) : Except String StartupOS :=
  match os.set_fail with
  | some e => .error e
  | none => .ok { os with autostart := enabled }

/-- `StartupManager::is_enabled`. -/
def is_enabled (os : StartupOS) : Except String Bool :=
  match os.read_fail with
  | some e => .error e
  | none => .ok os.autostart

end StartupManager

/-- The outcomes of the remaining effectful collaborators the tray model
calls: config-file loading, display enumeration, the backend input write,
config-file patching and path resolution. -/
structure Env where
  load_config : Except String (Option Config)
  list_displays : Except String (List DisplayInfo)
  set_input_result : String → Nat → Except String Unit
  patch_config : Bool → Except String Unit
  ensure_config : Except String String
  config_path : Option String
  parent_dir : String → Option String

/-- `model::ModelUpdate`. -/
structure ModelUpdate where
  refresh_menu : Bool := false
  refresh_tooltip : Bool := false
  quit : Bool := false
  open_path : Option String := none
deriving DecidableEq, Repr

/-- `model::TrayModel` (the boxed backend is represented by `Env`). -/
structure TrayModel where
  inputs : InputsTable
  display_selector : String
  last_error : Option String
  start_enabled : Bool
  start_pref : Option Bool
deriving DecidableEq, Repr

/-- `common::apply_startup_pref`, specialised to the `StartupManager`
closures the model passes it (with their `.context(...)` wrappers). -/
def apply_startup_pref (pref : Option Bool) (os : StartupOS) :
    (Bool × Option String) × StartupOS :=
  match pref with
  | some enabled =>
    match StartupManager.set_enabled os enabled with
    | .ok os1 => ((enabled, none), os1)
    | .error e => ((enabled, some (with_context "update startup setting" e)), os)
  | none =>
    match StartupManager.is_enabled os with
    | .ok enabled => ((enabled, none), os)
    | .error e => ((false, some (with_context "read startup setting" e)), os)

/-- `model::load_display_and_inputs`: returns
`(display_selector, inputs, start_pref, load_error)`. -/
def load_display_and_inputs (env : Env) :
    String × InputsTable × Option Bool × Option String :=
  match env.load_config with
  | .error e => ("1", default_inputs CMD_BASE_INPUT, none, some e)
  | .ok cfg =>
    let start_pref := cfg.bind fun c => c.start_with_windows
    let (displays, load_error) :=
      match env.list_displays with
      | .ok ds => (ds, none)
      | .error e => (([] : List DisplayInfo), some e)
    let resolved := resolve cfg displays none
    (resolved.display_selector, build_inputs resolved.inputs CMD_BASE_INPUT,
      start_pref, load_error)

/-- `TrayModel::new` (after backend selection, which is the only fallible
step, has succeeded).  The OS autostart state is passed through so the
theorems can observe that construction performs no `StartupManager`
operation: the source assigns `start_enabled: start_pref.unwrap_or(false)`
directly. -/
def TrayModel.new (env : Env) (os : StartupOS) : TrayModel × StartupOS :=
  match load_display_and_inputs env with
  | (display_selector, inputs, start_pref, load_error) =>
    ({ inputs := inputs, display_selector := display_selector,
       last_error := load_error, start_enabled := start_pref.getD false,
       start_pref := start_pref }, os)

/-- `TrayModel::note_error`. -/
def TrayModel.note_error (m : TrayModel) (e : String) : TrayModel × ModelUpdate :=
  ({ m with last_error := some e }, { refresh_tooltip := true })

/-- The context message `set_input` attaches
(the value and the single-quoted selector interpolated by `format!`). -/
def set_input_context (value : Nat) (selector : String) : String :=
  "set input " ++ toString value ++ " on " ++ squote ++ selector ++ squote

/-- `TrayModel::set_input`. -/
def TrayModel.set_input (env : Env) (m : TrayModel) (value : Nat) :
    Except String TrayModel :=
  match env.set_input_result m.display_selector value with
  | .error e => .error (with_context (set_input_context value m.display_selector) e)
  | .ok _ => .ok { m with last_error := none }

/-- `TrayModel::reload_config`. -/
def TrayModel.reload_config (env : Env) (os : StartupOS) (m : TrayModel) :
    Except String (TrayModel × ModelUpdate) × StartupOS :=
  match load_display_and_inputs env with
  | (display_selector, inputs, start_pref, load_error) =>
    let m1 := { m with display_selector := display_selector,
                       inputs := inputs, start_pref := start_pref }
    match apply_startup_pref m1.start_pref os with
    | ((start_enabled, startup_error), os1) =>
      (.ok ({ m1 with start_enabled := start_enabled,
                      last_error := load_error.or startup_error },
            { refresh_menu := true, refresh_tooltip := true }), os1)

/-- `TrayModel::toggle_startup`. -/
def TrayModel.toggle_startup (env : Env) (os : StartupOS) (m : TrayModel) :
    Except String (TrayModel × ModelUpdate) × StartupOS :=
  let next := !m.start_enabled
  match StartupManager.set_enabled os next with
  | .error e => (.error (with_context "update startup setting" e), os)
  | .ok os1 =>
    match env.patch_config next with
    | .error e => (.error (with_context "update config" e), os1)
    | .ok _ =>
      (.ok ({ m with start_enabled := next, last_error := none },
            { refresh_menu := true, refresh_tooltip := true }), os1)

/-- `TrayModel::edit_config`. -/
def TrayModel.edit_config (env : Env) (_m : TrayModel) : Except String String :=
  match env.ensure_config with
  | .error e => .error (with_context "ensure config exists" e)
  | .ok path => .ok path

/-- `TrayModel::open_config_folder`. -/
def TrayModel.open_config_folder (env : Env) (_m : TrayModel) : Except String String :=
  match env.config_path with
  | none => .error "No config path available"
  | some path =>
    match env.parent_dir path with
    | none => .error "No parent directory for config path"
    | some parent => .ok parent

/-- `TrayModel::handle`: the single command entry point.  (The source
returns `Result<ModelUpdate>` but every arm is infallible — failures are
caught by `unwrap_or_else(note_error)` — so the embedding is total.) -/
def TrayModel.handle (env : Env) (os : StartupOS) (m : TrayModel) (cmd : Command) :
    (TrayModel × ModelUpdate) × StartupOS :=
  match cmd with
  | .Input value =>
    (match TrayModel.set_input env m value with
     | .ok m1 => (m1, { refresh_tooltip := true })
     | .error e => m.note_error e, os)
  | .Reload =>
    (match TrayModel.reload_config env os m with
     | (.ok r, os1) => (r, os1)
     | (.error e, os1) => (m.note_error e, os1))
  | .ToggleStartup =>
    (match TrayModel.toggle_startup env os m with
     | (.ok r, os1) => (r, os1)
     | (.error e, os1) => (m.note_error e, os1))
  | .EditConfig =>
    (match TrayModel.edit_config env m with
     | .ok path => (m, { open_path := some path })
     | .error e => m.note_error e, os)
  | .OpenConfigFolder =>
    (match TrayModel.open_config_folder env m with
     | .ok path => (m, { open_path := some path })
     | .error e => m.note_error e, os)
  | .Quit => ((m, { quit := true }), os)

/-! ## Order properties of the string comparison -/

theorem charListLe_total : ∀ a b : List Char, charListLe a b = true ∨ charListLe b a = true
  | [], _ => Or.inl rfl
  | _ :: _, [] => Or.inr rfl
  | x :: xs, y :: ys => by
    by_cases h1 : x.toNat < y.toNat
    · left; simp [charListLe, h1]
    · by_cases h2 : y.toNat < x.toNat
      · right; simp [charListLe, h1, h2]
      · rcases charListLe_total xs ys with h | h
        · left; simp [charListLe, h1, h2, h]
        · right; simp [charListLe, h1, h2, h]

theorem charListLe_trans :
    ∀ a b c : List Char, charListLe a b = true → charListLe b c = true →
      charListLe a c = true
  | [], _, _, _, _ => rfl
  | _ :: _, [], _, hab, _ => by simp [charListLe] at hab
  | _ :: _, _ :: _, [], _, hbc => by simp [charListLe] at hbc
  | x :: xs, y :: ys, z :: zs, hab, hbc => by
    by_cases hxy : x.toNat < y.toNat
    · by_cases hyz : y.toNat < z.toNat
      · have hxz : x.toNat < z.toNat := by omega
        simp [charListLe, hxz]
      · by_cases hzy : z.toNat < y.toNat
        · simp [charListLe, hyz, hzy] at hbc
        · have hxz : x.toNat < z.toNat := by omega
          simp [charListLe, hxz]
    · by_cases hyx : y.toNat < x.toNat
      · simp [charListLe, hxy, hyx] at hab
      · by_cases hyz : y.toNat < z.toNat
        · have hxz : x.toNat < z.toNat := by omega
          simp [charListLe, hxz]
        · by_cases hzy : z.toNat < y.toNat
          · simp [charListLe, hyz, hzy] at hbc
          · have hxz : ¬ x.toNat < z.toNat := by omega
            have hzx : ¬ z.toNat < x.toNat := by omega
            have tab : charListLe xs ys = true := by
              simpa [charListLe, hxy, hyx] using hab
            have tbc : charListLe ys zs = true := by
              simpa [charListLe, hyz, hzy] using hbc
            simpa [charListLe, hxz, hzx] using charListLe_trans xs ys zs tab tbc

theorem charListLe_antisymm :
    ∀ a b : List Char, charListLe a b = true → charListLe b a = true → a = b
  | [], [], _, _ => rfl
  | [], _ :: _, _, hba => by simp [charListLe] at hba
  | _ :: _, [], hab, _ => by simp [charListLe] at hab
  | x :: xs, y :: ys, hab, hba => by
    by_cases hxy : x.toNat < y.toNat
    · have hyx : ¬ y.toNat < x.toNat := by omega
      simp [charListLe, hxy, hyx] at hba
    · by_cases hyx : y.toNat < x.toNat
      · simp [charListLe, hxy, hyx] at hab
      · have hx : x = y := by
          have ht : x.toNat = y.toNat := by omega
          exact Char.ext (UInt32.toNat.inj ht)
        subst hx
        have tab : charListLe xs ys = true := by
          simpa [charListLe, hxy, hyx] using hab
        have tba : charListLe ys xs = true := by
          simpa [charListLe, hxy, hyx] using hba
        rw [charListLe_antisymm xs ys tab tba]

theorem strLe_antisymm (a b : String) (h1 : strLe a b = true) (h2 : strLe b a = true) :
    a = b := by
  have := charListLe_antisymm a.data b.data h1 h2
  cases a
  cases b
  simp_all

instance : IsTotal (String × Nat) keyLe :=
  ⟨fun a b => charListLe_total a.1.data b.1.data⟩

instance : IsTrans (String × Nat) keyLe :=
  ⟨fun a b c hab hbc => charListLe_trans a.1.data b.1.data c.1.data hab hbc⟩

/-- Two lists with the same entries (a permutation) and duplicate-free
keys have equal key-sorted forms: sortedness plus key-uniqueness pins the
list down completely. -/
theorem sorted_perm_nodupKeys_eq (s₁ : StrMap) :
    ∀ s₂ : StrMap, s₁.Perm s₂ → List.Sorted keyLe s₁ → List.Sorted keyLe s₂ →
      (s₁.map Prod.fst).Nodup → s₁ = s₂ := by
  induction s₁ with
  | nil =>
    intro s₂ hp _ _ _
    exact (hp.symm.eq_nil).symm
  | cons a t ih =>
    intro s₂ hp hs₁ hs₂ hnd
    cases s₂ with
    | nil => exact absurd hp.eq_nil (by simp)
    | cons b t₂ =>
      have hab : a = b := by
        have ha2 : a ∈ b :: t₂ := hp.mem_iff.mp (List.mem_cons_self a t)
        have hb1 : b ∈ a :: t := hp.mem_iff.mpr (List.mem_cons_self b t₂)
        rcases List.mem_cons.mp ha2 with h | ha2t
        · exact h
        · rcases List.mem_cons.mp hb1 with h | hb1t
          · exact h.symm
          · have h1 : keyLe a b := (List.rel_of_sorted_cons hs₁) b hb1t
            have h2 : keyLe b a := (List.rel_of_sorted_cons hs₂) a ha2t
            have hkey : a.1 = b.1 := strLe_antisymm a.1 b.1 h1 h2
            have hmem : a.1 ∈ t.map Prod.fst := by
              rw [hkey]
              exact List.mem_map_of_mem Prod.fst hb1t
            rw [List.map_cons, List.nodup_cons] at hnd
            exact absurd hmem hnd.1
      subst hab
      have hp' : t.Perm t₂ := hp.cons_inv
      have hnd' : (t.map Prod.fst).Nodup := by
        rw [List.map_cons, List.nodup_cons] at hnd
        exact hnd.2
      rw [ih t₂ hp' hs₁.of_cons hs₂.of_cons hnd']

/-- `build_inputs` is a function of the key-value set alone: permuting the
(unordered `HashMap`) entry list does not change the sorted result. -/
theorem insertionSort_eq_of_perm (l₁ l₂ : StrMap) (hp : l₁.Perm l₂)
    (hnd : (l₁.map Prod.fst).Nodup) :
    List.insertionSort keyLe l₁ = List.insertionSort keyLe l₂ := by
  apply sorted_perm_nodupKeys_eq
  · exact (List.perm_insertionSort keyLe l₁).trans
      (hp.trans (List.perm_insertionSort keyLe l₂).symm)
  · exact List.sorted_insertionSort keyLe l₁
  · exact List.sorted_insertionSort keyLe l₂
  · exact (((List.perm_insertionSort keyLe l₁).map Prod.fst).nodup_iff).mpr hnd

/-! ## Properties of the id-assignment loop -/

theorem assignIds_map_fst :
    ∀ (l : List (String × Nat)) (b : Nat),
      (assignIds b l).map Prod.fst = (List.range' b l.length).map (· % 65536)
  | [], _ => rfl
  | kv :: rest, b => by
    rw [List.length_cons, List.range'_succ]
    simp only [assignIds, List.map_cons]
    rw [assignIds_map_fst rest (b + 1)]

theorem assignIds_map_snd :
    ∀ (l : List (String × Nat)) (b : Nat), (assignIds b l).map Prod.snd = l
  | [], _ => rfl
  | kv :: rest, b => by
    simp only [assignIds, List.map_cons]
    rw [assignIds_map_snd rest (b + 1)]

theorem mem_range'_iff (m s n : Nat) : m ∈ List.range' s n ↔ s ≤ m ∧ m < s + n := by
  rw [List.mem_range']
  constructor
  · rintro ⟨i, hi, rfl⟩
    omega
  · rintro ⟨h1, h2⟩
    exact ⟨m - s, by omega, by omega⟩

/-! ## Lookup lemmas for the map model -/

theorem lookup_eq_none_of_not_mem_keys {α β : Type} [BEq α] [LawfulBEq α] :
    ∀ (l : List (α × β)) (k : α), k ∉ l.map Prod.fst → List.lookup k l = none := by
  intro l
  induction l with
  | nil => intro k _; rfl
  | cons a t ih =>
    intro k h
    rw [List.map_cons, List.mem_cons] at h
    push_neg at h
    have hb : (k == a.1) = false := by simpa using h.1
    cases a with
    | mk k1 v1 =>
      simp only [List.lookup, hb]
      exact ih k h.2

theorem lookup_append {α β : Type} [BEq α] (k : α) (l₁ l₂ : List (α × β)) :
    List.lookup k (l₁ ++ l₂) = (List.lookup k l₁).or (List.lookup k l₂) := by
  induction l₁ with
  | nil => simp [List.lookup]
  | cons a t ih =>
    cases a with
    | mk k1 v1 =>
      cases hb : (k == k1) with
      | true => simp only [List.cons_append, List.lookup, hb, Option.or]
      | false => simpa only [List.cons_append, List.lookup, hb] using ih

theorem lookup_filter_ne (m : StrMap) (k₀ k : String) :
    List.lookup k (m.filter fun p => p.1 != k₀) =
      if k = k₀ then none else List.lookup k m := by
  induction m with
  | nil => simp [List.lookup]
  | cons a t ih =>
    cases a with
    | mk k1 v1 =>
      by_cases hk1 : k1 = k₀
      · subst hk1
        have : ((k1, v1).1 != k1) = false := by simp
        rw [List.filter_cons_of_neg (by simp)]
        rw [ih]
        by_cases hk : k = k1
        · simp [hk]
        · have hb : (k == k1) = false := by simpa using hk
          simp only [List.lookup, hb, if_neg hk]
      · rw [List.filter_cons_of_pos (by simpa using hk1)]
        by_cases hk : k = k1
        · subst hk
          have hkk₀ : ¬ k = k₀ := hk1
          simp only [List.lookup, beq_self_eq_true, if_neg hkk₀]
        · have hb : (k == k1) = false := by simpa using hk
          simp only [List.lookup, hb, ih]

theorem lookup_mapInsert (m : StrMap) (k₀ : String) (v₀ : Nat) (k : String) :
    List.lookup k (mapInsert m k₀ v₀) =
      if k = k₀ then some v₀ else List.lookup k m := by
  unfold mapInsert
  rw [lookup_append, lookup_filter_ne]
  by_cases hk : k = k₀
  · subst hk
    simp [List.lookup]
  · have hb : (k == k₀) = false := by simpa using hk
    simp [List.lookup, hk, hb]

theorem lookup_mapExtendInsert :
    ∀ (l base : StrMap), (l.map Prod.fst).Nodup → ∀ k : String,
      List.lookup k (mapExtendInsert base l) =
        (List.lookup k l).or (List.lookup k base)
  | [], base, _, k => by simp [mapExtendInsert, List.lookup]
  | (k₀, v₀) :: rest, base, hnd, k => by
    rw [List.map_cons, List.nodup_cons] at hnd
    have step : mapExtendInsert base ((k₀, v₀) :: rest) =
        mapExtendInsert (mapInsert base k₀ v₀) rest := rfl
    rw [step, lookup_mapExtendInsert rest _ hnd.2 k, lookup_mapInsert]
    by_cases hk : k = k₀
    · subst hk
      have hnone : List.lookup k rest = none :=
        lookup_eq_none_of_not_mem_keys rest k (by simpa using hnd.1)
      simp [List.lookup, hnone]
    · have hb : (k == k₀) = false := by simpa using hk
      simp [List.lookup, hb, hk]

/-! ## First-match lemmas for the rule loop -/

theorem firstRuleMatch_append (displays : List DisplayInfo) :
    ∀ (pre rest : List MonitorConfig),
      (∀ m ∈ pre, match_display m displays = none) →
      firstRuleMatch (pre ++ rest) displays = firstRuleMatch rest displays
  | [], _, _ => rfl
  | m :: pre, rest, h => by
    have hm : match_display m displays = none := h m (List.mem_cons_self m pre)
    show firstRuleMatch (m :: (pre ++ rest)) displays = _
    simp only [firstRuleMatch, hm]
    exact firstRuleMatch_append displays pre rest
      fun m1 hm1 => h m1 (List.mem_cons_of_mem m hm1)

/-! ## Concrete fixtures shared by several theorems -/

/-- A display with a product name and a UUID. -/
def dDell : DisplayInfo :=
  { index := 1, product_name := some "Dell U2720", system_uuid := some "ABC-123" }

/-- A display carrying no product name and no UUID. -/
def dNoName : DisplayInfo :=
  { index := 1, product_name := none, system_uuid := none }

/-- A rule whose `contains` text matches nothing in the fixtures. -/
def ruleNoMatch : MonitorConfig :=
  { r_match := { contains := some "zzz", index := none }, display := none, inputs := [] }

/-- An index rule carrying input overrides. -/
def ruleIdx : MonitorConfig :=
  { r_match := { contains := none, index := some 1 }, display := none,
    inputs := [("b", 9), ("c", 3)] }

/-- A later rule that would also match the fixtures (it must be ignored). -/
def rulePost : MonitorConfig :=
  { r_match := { contains := some "dell", index := none }, display := some "9",
    inputs := [("zz", 99)] }

/-- A config with an empty-string `contains` rule. -/
def ruleEmptyContains : MonitorConfig :=
  { r_match := { contains := some "", index := none }, display := none, inputs := [] }

/-- Config fixture: no default display, two global presets, three rules. -/
def cfgC2 : Config :=
  { start_with_windows := none, default_display := none,
    inputs := [("a", 1), ("b", 2)], monitors := [ruleNoMatch, ruleIdx, rulePost] }

/-- Config fixture: everything empty. -/
def cfgEmpty : Config :=
  { start_with_windows := none, default_display := none, inputs := [], monitors := [] }

/-- Config fixture: a default display and nothing else. -/
def cfgDD : Config :=
  { start_with_windows := none, default_display := some "dd-sel", inputs := [],
    monitors := [] }

/-! ## C5: selector priority in `resolve` -/

/-- C5: an explicit selector argument always wins; otherwise the
`default_display` is used when present; and with an empty `monitors` list,
no `default_display` and no explicit selector, `resolve` yields the
literal selector `"1"`. -/
theorem resolve_selector_priority (cfg : Config)
    (s dd : String) (hdd : cfg.default_display = none) (hmons : cfg.monitors = []) :
    (∀ (config : Option Config) (ds : List DisplayInfo),
      (resolve config ds (some s)).display_selector = s) ∧
    (∀ (cfg2 : Config) (ds : List DisplayInfo), cfg2.default_display = some dd →
      (resolve (some cfg2) ds none).display_selector = dd) ∧
    (∀ ds : List DisplayInfo, (resolve (some cfg) ds none).display_selector = "1") := by
  refine ⟨?_, ?_, ?_⟩
  · intro config ds
    cases config <;> simp [resolve]
  · intro cfg2 ds h2
    simp [resolve, h2]
  · intro ds
    simp [resolve, hdd, hmons, firstRuleMatch]

theorem resolve_selector_priority_witness :
    (resolve (some cfgEmpty) [dDell] (some "7")).display_selector = "7" ∧
    (resolve (some cfgDD) [dDell] none).display_selector = "dd-sel" ∧
    (resolve (some cfgEmpty) [dDell] none).display_selector = "1" := by
  have h := resolve_selector_priority cfgEmpty "7" "dd-sel" rfl rfl
  exact ⟨h.1 (some cfgEmpty) [dDell], h.2.1 cfgDD [dDell] rfl, h.2.2 [dDell]⟩

/-! ## C2: first matching rule decides, rule inputs override globals -/

/-- C2: with no explicit selector and no `default_display`, the first rule
(in file order) whose match succeeds alone determines the selector and the
input overrides — the rules after it are never consulted — and the matched
rule `inputs` entries are layered over the global presets with the rule winning
on key conflicts. -/
theorem resolve_first_rule (cfg : Config) (displays : List DisplayInfo)
    (pre post : List MonitorConfig) (m : MonitorConfig) (d : DisplayInfo) (sel : String)
    (hdd : cfg.default_display = none)
    (hmons : cfg.monitors = pre ++ m :: post)
    (hpre : ∀ m0 ∈ pre, match_display m0 displays = none)
    (hm : match_display m displays = some (d, sel))
    (hcfg : (cfg.inputs.map Prod.fst).Nodup)
    (hrule : (m.inputs.map Prod.fst).Nodup) :
    resolve (some cfg) displays none =
      { display_selector := m.display.getD sel,
        inputs := mapExtendInsert (mapExtendInsert [] cfg.inputs) m.inputs } ∧
    ∀ k : String,
      List.lookup k (resolve (some cfg) displays none).inputs =
        (List.lookup k m.inputs).or (List.lookup k cfg.inputs) := by
  have hfirst : firstRuleMatch cfg.monitors displays = some (m, d, sel) := by
    rw [hmons, firstRuleMatch_append displays pre _ hpre]
    simp [firstRuleMatch, hm]
  have hres : resolve (some cfg) displays none =
      { display_selector := m.display.getD sel,
        inputs := mapExtendInsert (mapExtendInsert [] cfg.inputs) m.inputs } := by
    simp [resolve, hdd, hfirst]
  refine ⟨hres, ?_⟩
  intro k
  rw [hres]
  show List.lookup k (mapExtendInsert (mapExtendInsert [] cfg.inputs) m.inputs) = _
  rw [lookup_mapExtendInsert m.inputs _ hrule k,
    lookup_mapExtendInsert cfg.inputs [] hcfg k]
  cases List.lookup k m.inputs <;> cases List.lookup k cfg.inputs <;>
    simp [Option.or, List.lookup]

theorem resolve_first_rule_witness :
    resolve (some cfgC2) [dDell] none =
      { display_selector := "uuid:ABC-123",
        inputs := mapExtendInsert (mapExtendInsert [] cfgC2.inputs) ruleIdx.inputs } ∧
    List.lookup "b" (resolve (some cfgC2) [dDell] none).inputs = some 9 ∧
    List.lookup "a" (resolve (some cfgC2) [dDell] none).inputs = some 1 := by
  have h := resolve_first_rule cfgC2 [dDell] [ruleNoMatch] [rulePost] ruleIdx dDell
    "uuid:ABC-123" rfl rfl
    (by
      intro m0 hm0
      rw [List.mem_singleton] at hm0
      subst hm0
      decide)
    (by decide) (by decide) (by decide)
  refine ⟨?_, ?_, ?_⟩
  · simpa [ruleIdx] using h.1
  · rw [h.2 "b"]; decide
  · rw [h.2 "a"]; decide

/-! ## C3: match semantics -/

/-- C3 counterexample: a rule whose `contains` string is empty matches a
display with no `product_name` at all (the empty needle is a substring of
the empty default string), refuting the claim that a `contains` rule never
matches a display whose `productName` is absent. -/
theorem match_display_empty_contains_matches_noname :
    match_display ruleEmptyContains [dNoName] = some (dNoName, "1") := by decide

/-- C3 (amended): an index rule matches exactly against `DisplayInfo.index`
and takes precedence over `contains` (which is then never consulted); a
contains-only rule matches some display iff its lowered string occurs in
the lowered `product_name` of some display (absent names count as empty); and a
contains-only rule with a NON-EMPTY string never matches a display whose
`product_name` is absent. -/
theorem match_display_semantics (mon : MonitorConfig) (displays : List DisplayInfo)
    (i : Nat) (needle : String) :
    (mon.r_match.index = some i →
      (∀ c : Option String,
        match_display { mon with r_match := { mon.r_match with contains := c } }
            displays =
          match_display mon displays) ∧
      (∀ d s, match_display mon displays = some (d, s) → d.index = i) ∧
      ((match_display mon displays).isSome ↔ ∃ d ∈ displays, d.index = i)) ∧
    (mon.r_match.index = none → mon.r_match.contains = some needle →
      ((match_display mon displays).isSome ↔
        ∃ d ∈ displays,
          strContainsSub (asciiLower ((d.product_name).getD ""))
            (asciiLower needle) = true) ∧
      (needle ≠ "" →
        ∀ d s, match_display mon displays = some (d, s) → d.product_name ≠ none)) := by
  constructor
  · intro hidx
    refine ⟨?_, ?_, ?_⟩
    · intro c
      simp [match_display, hidx]
    · intro d s hmd
      rw [match_display, hidx] at hmd
      rcases Option.map_eq_some'.mp hmd with ⟨d0, hfind, heq⟩
      have hd0 : d0 = d := congrArg Prod.fst heq
      subst hd0
      have := List.find?_some hfind
      simpa using this
    · simp only [match_display, hidx]
      rw [show ∀ x : Option DisplayInfo,
            (x.map fun d => (d, selector_for_display d)).isSome = x.isSome
          from fun x => by cases x <;> rfl]
      rw [List.find?_isSome]
      constructor
      · rintro ⟨d, hd, hp⟩
        exact ⟨d, hd, by simpa using hp⟩
      · rintro ⟨d, hd, hp⟩
        exact ⟨d, hd, by simpa using hp⟩
  · intro hidx hc
    constructor
    · simp only [match_display, hidx, hc]
      rw [show ∀ x : Option DisplayInfo,
            (x.map fun d => (d, selector_for_display d)).isSome = x.isSome
          from fun x => by cases x <;> rfl]
      exact List.find?_isSome
    · intro hne d s hmd
      rw [match_display, hidx, hc] at hmd
      rcases Option.map_eq_some'.mp hmd with ⟨d0, hfind, heq⟩
      have hd0 : d0 = d := congrArg Prod.fst heq
      subst hd0
      have hp := List.find?_some hfind
      intro hnone
      rw [hnone] at hp
      have hdata : needle.data ≠ [] := by
        intro hd
        apply hne
        cases needle
        simp_all
      cases hneedle : needle.data with
      | nil => exact hdata hneedle
      | cons c cs =>
        rw [strContainsSub] at hp
        have : (asciiLower needle).data = asciiLowerChar c :: cs.map asciiLowerChar := by
          rw [asciiLower, hneedle]
          rfl
        rw [this] at hp
        simp [containsSeq, prefixCheck, asciiLower] at hp

theorem match_display_semantics_witness :
    match_display ruleIdx [dDell] = some (dDell, "uuid:ABC-123") ∧
    (match_display rulePost [dDell]).isSome = true ∧
    dDell.product_name ≠ none := by
  have h := match_display_semantics ruleIdx [dDell] 1 "dell"
  have h2 := match_display_semantics rulePost [dDell] 1 "dell"
  refine ⟨by decide, ?_, ?_⟩
  · exact ((h2.2 rfl rfl).1).mpr ⟨dDell, by decide, by decide⟩
  · exact (h2.2 rfl rfl).2 (by decide) dDell "uuid:ABC-123" (by decide)

/-! ## C4: table keys and id disjointness -/

/-- The id list produced for a non-empty preset map is an initial segment
of the naturals starting at the base id (as long as no `u16` wraparound
occurs, which needs more than 63536 presets). -/
theorem map_mod_range'_eq (s n : Nat) (h : s + n ≤ 65536) :
    (List.range' s n).map (· % 65536) = List.range' s n := by
  have hcongr : ∀ x ∈ List.range' s n, x % 65536 = id x := by
    intro x hx
    rw [mem_range'_iff] at hx
    exact Nat.mod_eq_of_lt (by omega)
  rw [List.map_congr_left hcongr, List.map_id]

/-- Distinct preset names used for the C4 counterexample. -/
def keyOfNat (i : Nat) : String :=
  toString i

/-- A preset map with 3001 entries (all with distinct names). -/
def bigInputs : StrMap :=
  (List.range 3001).map fun i => (keyOfNat i, 0)

/-- C4 counterexample: a preset map with 3001 entries produces a table
entry whose command id is exactly `CMD_RELOAD` (= 5000): the dynamic ids
`2000, 2001, ...` run into the fixed action-id range, refuting the
unconditional disjointness claim. -/
theorem build_inputs_id_collision :
    ∃ p ∈ build_inputs bigInputs CMD_BASE_INPUT, p.1 = CMD_RELOAD := by
  have hlen : bigInputs.length = 3001 := by
    rw [bigInputs, List.length_map, List.length_range]
  have hne : bigInputs.isEmpty = false := by
    have : bigInputs ≠ [] := by
      intro h
      rw [h] at hlen
      simp at hlen
    simpa [List.isEmpty_iff] using this
  have htab : build_inputs bigInputs CMD_BASE_INPUT =
      assignIds CMD_BASE_INPUT (List.insertionSort keyLe bigInputs) := by
    simp only [build_inputs, hne, Bool.false_eq_true, if_false]
  have hslen : (List.insertionSort keyLe bigInputs).length = 3001 := by
    rw [List.length_insertionSort, hlen]
  have hfst := assignIds_map_fst (List.insertionSort keyLe bigInputs) CMD_BASE_INPUT
  rw [hslen] at hfst
  have hmem : CMD_RELOAD ∈
      (assignIds CMD_BASE_INPUT (List.insertionSort keyLe bigInputs)).map Prod.fst := by
    rw [hfst]
    refine List.mem_map.mpr ⟨5000, ?_, by norm_num [CMD_RELOAD]⟩
    rw [mem_range'_iff]
    norm_num [CMD_BASE_INPUT]
  rw [htab]
  rcases List.mem_map.mp hmem with ⟨p, hp, hfst5⟩
  exact ⟨p, hp, hfst5⟩

/-- C4 (amended): for preset maps of at most 3000 entries (so that the
dynamic ids, which start at 2000 and increment by one, stay below 5000),
every preset name appears in the built table and every table id differs
from each of the five fixed action-command ids.  (The counterexample shows
the 3000-entry bound is necessary.) -/
theorem build_inputs_keys_and_ids (inputs : StrMap) (hlen : inputs.length ≤ 3000) :
    (∀ k ∈ inputs.map Prod.fst,
      ∃ p ∈ build_inputs inputs CMD_BASE_INPUT, p.2.1 = k) ∧
    (∀ p ∈ build_inputs inputs CMD_BASE_INPUT,
      p.1 ≠ CMD_RELOAD ∧ p.1 ≠ CMD_QUIT ∧ p.1 ≠ CMD_TOGGLE_STARTUP ∧
      p.1 ≠ CMD_EDIT_CONFIG ∧ p.1 ≠ CMD_OPEN_CONFIG_FOLDER) := by
  cases he : inputs.isEmpty with
  | true =>
    have hnil : inputs = [] := by simpa [List.isEmpty_iff] using he
    subst hnil
    constructor
    · intro k hk
      simp at hk
    · intro p hp
      have htab : build_inputs [] CMD_BASE_INPUT =
          [(2000, ("dp1", 15)), (2001, ("usb_c", 26))] := by decide
      rw [htab] at hp
      rcases List.mem_cons.mp hp with h | h
      · subst h
        refine ⟨?_, ?_, ?_, ?_, ?_⟩ <;> decide
      · rcases List.mem_cons.mp h with h2 | h2
        · subst h2
          refine ⟨?_, ?_, ?_, ?_, ?_⟩ <;> decide
        · simp at h2
  | false =>
    have htab : build_inputs inputs CMD_BASE_INPUT =
        assignIds CMD_BASE_INPUT (List.insertionSort keyLe inputs) := by
      simp [build_inputs, he]
    have hslen : (List.insertionSort keyLe inputs).length = inputs.length :=
      List.length_insertionSort keyLe inputs
    constructor
    · intro k hk
      rcases List.mem_map.mp hk with ⟨kv, hkv, hfstk⟩
      have hsortmem : kv ∈ List.insertionSort keyLe inputs :=
        (List.mem_insertionSort keyLe).mpr hkv
      have hsnd := assignIds_map_snd (List.insertionSort keyLe inputs) CMD_BASE_INPUT
      have : kv ∈ (assignIds CMD_BASE_INPUT
          (List.insertionSort keyLe inputs)).map Prod.snd := by
        rw [hsnd]
        exact hsortmem
      rcases List.mem_map.mp this with ⟨p, hp, hsndp⟩
      refine ⟨p, by rw [htab]; exact hp, ?_⟩
      rw [hsndp, hfstk]
    · intro p hp
      rw [htab] at hp
      have hid : p.1 ∈ (assignIds CMD_BASE_INPUT
          (List.insertionSort keyLe inputs)).map Prod.fst :=
        List.mem_map_of_mem Prod.fst hp
      rw [assignIds_map_fst, hslen] at hid
      rcases List.mem_map.mp hid with ⟨x, hx, hxid⟩
      rw [mem_range'_iff] at hx
      have hx65536 : x < 65536 := by
        have : CMD_BASE_INPUT = 2000 := rfl
        omega
      have hxlt : p.1 < 5000 := by
        rw [← hxid, Nat.mod_eq_of_lt hx65536]
        have : CMD_BASE_INPUT = 2000 := rfl
        omega
      refine ⟨?_, ?_, ?_, ?_, ?_⟩ <;>
        simp only [CMD_RELOAD, CMD_QUIT, CMD_TOGGLE_STARTUP, CMD_EDIT_CONFIG,
          CMD_OPEN_CONFIG_FOLDER] <;> omega

theorem build_inputs_keys_and_ids_witness :
    (∃ p ∈ build_inputs [("dp1", 15), ("usb_c", 26)] CMD_BASE_INPUT,
      p.2.1 = "dp1") ∧
    (∀ p ∈ build_inputs [("dp1", 15), ("usb_c", 26)] CMD_BASE_INPUT,
      p.1 ≠ CMD_RELOAD ∧ p.1 ≠ CMD_QUIT ∧ p.1 ≠ CMD_TOGGLE_STARTUP ∧
      p.1 ≠ CMD_EDIT_CONFIG ∧ p.1 ≠ CMD_OPEN_CONFIG_FOLDER) := by
  have h := build_inputs_keys_and_ids [("dp1", 15), ("usb_c", 26)] (by norm_num)
  exact ⟨h.1 "dp1" (by decide), h.2⟩

/-! ## C6: id assignment order and determinism -/

/-- C6: `build_inputs` assigns ids starting at 2000, incrementing by one,
in lexicographic order of preset names; it is determined by the key-value
set alone (equal maps — permutations with duplicate-free keys — give equal
tables); and on `{"dp1": 15, "usb_c": 26}` it yields exactly
`{2000: ("dp1", 15), 2001: ("usb_c", 26)}`. -/
theorem build_inputs_deterministic_sorted (inputs inputs2 : StrMap)
    (hperm : inputs.Perm inputs2) (hnd : (inputs.map Prod.fst).Nodup)
    (hlen : inputs.length ≤ 63536) :
    build_inputs inputs CMD_BASE_INPUT = build_inputs inputs2 CMD_BASE_INPUT ∧
    (inputs ≠ [] →
      (build_inputs inputs CMD_BASE_INPUT).map Prod.fst =
        List.range' CMD_BASE_INPUT inputs.length) ∧
    List.Pairwise (fun a b => strLe a b = true)
      ((build_inputs inputs CMD_BASE_INPUT).map fun p => p.2.1) ∧
    build_inputs [("dp1", 15), ("usb_c", 26)] CMD_BASE_INPUT =
      [(2000, ("dp1", 15)), (2001, ("usb_c", 26))] := by
  refine ⟨?_, ?_, ?_, by decide⟩
  · cases he : inputs.isEmpty with
    | true =>
      have h1 : inputs = [] := by simpa [List.isEmpty_iff] using he
      subst h1
      have h2 : inputs2 = [] := hperm.symm.eq_nil
      rw [h2]
    | false =>
      have hne2 : inputs2.isEmpty = false := by
        have h2 : inputs2 ≠ [] := by
          intro h
          rw [h] at hperm
          rw [hperm.eq_nil] at he
          simp at he
        simpa [List.isEmpty_iff] using h2
      simp only [build_inputs, he, hne2, Bool.false_eq_true, if_false]
      rw [insertionSort_eq_of_perm inputs inputs2 hperm hnd]
  · intro hne
    have he : inputs.isEmpty = false := by simpa [List.isEmpty_iff] using hne
    simp only [build_inputs, he, Bool.false_eq_true, if_false]
    rw [assignIds_map_fst, List.length_insertionSort]
    refine map_mod_range'_eq CMD_BASE_INPUT inputs.length ?_
    have hbase : CMD_BASE_INPUT = 2000 := rfl
    omega
  · cases he : inputs.isEmpty with
    | true =>
      have h1 : inputs = [] := by simpa [List.isEmpty_iff] using he
      subst h1
      decide
    | false =>
      simp only [build_inputs, he, Bool.false_eq_true, if_false]
      have hsorted : List.Sorted keyLe (List.insertionSort keyLe inputs) :=
        List.sorted_insertionSort keyLe inputs
      have hmm : (assignIds CMD_BASE_INPUT (List.insertionSort keyLe inputs)).map
          (fun p => p.2.1) =
          (List.insertionSort keyLe inputs).map Prod.fst := by
        conv_rhs =>
          rw [← assignIds_map_snd (List.insertionSort keyLe inputs) CMD_BASE_INPUT]
        rw [List.map_map]
        rfl
      rw [hmm]
      exact List.Pairwise.map Prod.fst (fun a b h => h) hsorted

theorem build_inputs_deterministic_sorted_witness :
    build_inputs [("dp1", 15), ("usb_c", 26)] CMD_BASE_INPUT =
      build_inputs [("usb_c", 26), ("dp1", 15)] CMD_BASE_INPUT ∧
    (build_inputs [("dp1", 15), ("usb_c", 26)] CMD_BASE_INPUT).map Prod.fst =
      List.range' CMD_BASE_INPUT 2 := by
  have h := build_inputs_deterministic_sorted [("dp1", 15), ("usb_c", 26)]
    [("usb_c", 26), ("dp1", 15)] (by decide) (by decide) (by norm_num)
  exact ⟨h.1, by simpa using h.2.1 (by decide)⟩

/-! ## C7: decode lookup order -/

/-- The inputs table built from the example preset map. -/
def exampleTable : InputsTable :=
  build_inputs [("dp1", 15), ("usb_c", 26)] CMD_BASE_INPUT

/-- C7: `decode` consults the dynamic inputs table first (a hit yields
`Input value`), then falls back to the five fixed action ids, and yields
`none` — never an error — on any other id; on the example table,
`decode 2000 = Input 15`, `decode 5001 = Quit`, `decode 9999 = none`. -/
theorem decode_priority (table : InputsTable) (id : Nat) (name : String) (value : Nat) :
    (List.lookup id table = some (name, value) →
      decode id table = some (Command.Input value)) ∧
    (List.lookup CMD_RELOAD table = none →
      decode CMD_RELOAD table = some Command.Reload) ∧
    (List.lookup CMD_QUIT table = none →
      decode CMD_QUIT table = some Command.Quit) ∧
    (List.lookup CMD_TOGGLE_STARTUP table = none →
      decode CMD_TOGGLE_STARTUP table = some Command.ToggleStartup) ∧
    (List.lookup CMD_EDIT_CONFIG table = none →
      decode CMD_EDIT_CONFIG table = some Command.EditConfig) ∧
    (List.lookup CMD_OPEN_CONFIG_FOLDER table = none →
      decode CMD_OPEN_CONFIG_FOLDER table = some Command.OpenConfigFolder) ∧
    (List.lookup id table = none → id ≠ CMD_RELOAD → id ≠ CMD_QUIT →
      id ≠ CMD_TOGGLE_STARTUP → id ≠ CMD_EDIT_CONFIG →
      id ≠ CMD_OPEN_CONFIG_FOLDER → decode id table = none) ∧
    decode 2000 exampleTable = some (Command.Input 15) ∧
    decode CMD_QUIT exampleTable = some Command.Quit ∧
    decode 9999 exampleTable = none := by
  refine ⟨?_, ?_, ?_, ?_, ?_, ?_, ?_, by decide, by decide, by decide⟩
  · intro h
    simp [decode, h]
  · intro h
    simp [decode, h]
  · intro h
    simp only [decode, h]
    decide
  · intro h
    simp only [decode, h]
    decide
  · intro h
    simp only [decode, h]
    decide
  · intro h
    simp only [decode, h]
    decide
  · intro h h1 h2 h3 h4 h5
    simp [decode, h, h1, h2, h3, h4, h5]

theorem decode_priority_witness :
    decode 2000 exampleTable = some (Command.Input 15) ∧
    decode CMD_RELOAD exampleTable = some Command.Reload ∧
    decode 9999 exampleTable = none := by
  have h := decode_priority exampleTable 2000 "dp1" 15
  have h9 := decode_priority exampleTable 9999 "dp1" 15
  refine ⟨h.1 (by decide), h.2.1 (by decide), ?_⟩
  exact h9.2.2.2.2.2.2.1 (by decide) (by decide) (by decide) (by decide)
    (by decide) (by decide)

/-! ## C10: empty preset map falls back to the default table -/

/-- C10: building the inputs table from an empty resolved preset map does
not yield an empty table — it yields exactly the hard-coded default table
`{2000: ("dp1", 15), 2001: ("usb_c", 26)}`, so at least these two entries
are always present. -/
theorem build_inputs_empty_default :
    build_inputs [] CMD_BASE_INPUT = [(2000, ("dp1", 15)), (2001, ("usb_c", 26))] ∧
    build_inputs [] CMD_BASE_INPUT = default_inputs CMD_BASE_INPUT ∧
    build_inputs [] CMD_BASE_INPUT ≠ [] := by decide

/-! ## Tray-model fixtures -/

/-- An environment in which every collaborator succeeds. -/
def envOkBase : Env :=
  { load_config := .ok none, list_displays := .ok [],
    set_input_result := fun _ _ => .ok (), patch_config := fun _ => .ok (),
    ensure_config := .ok "cfg.json", config_path := some "dir/cfg.json",
    parent_dir := fun _ => some "dir" }

/-- An environment whose backend `set_input` always fails. -/
def envFailSet : Env :=
  { envOkBase with set_input_result := fun _ _ => .error "boom" }

/-- A model fixture. -/
def mW : TrayModel :=
  { inputs := exampleTable, display_selector := "1", last_error := some "old",
    start_enabled := false, start_pref := none }

/-- A healthy OS autostart state, currently disabled. -/
def osW : StartupOS :=
  { autostart := false }

/-- An OS state whose autostart write fails. -/
def osFailSet : StartupOS :=
  { autostart := false, set_fail := some "regfail" }

/-! ## C8: handle(Input) -/

/-- C8: `handle(Input value)` always requests exactly a tooltip refresh
(no menu refresh, no quit, no open path) and touches no startup state; on
backend success `last_error` is cleared; on backend failure `last_error`
is set to the rendered error text while `display_selector` and the inputs
table are left unchanged. -/
theorem handle_input_behavior (env : Env) (os : StartupOS) (m : TrayModel)
    (value : Nat) :
    ((TrayModel.handle env os m (Command.Input value)).1.2 =
        { refresh_tooltip := true } ∧
      (TrayModel.handle env os m (Command.Input value)).2 = os) ∧
    (env.set_input_result m.display_selector value = .ok () →
      (TrayModel.handle env os m (Command.Input value)).1.1 =
        { m with last_error := none }) ∧
    (∀ e, env.set_input_result m.display_selector value = .error e →
      (TrayModel.handle env os m (Command.Input value)).1.1 =
        { m with last_error := some (with_context (set_input_context value m.display_selector) e) } ∧
      (TrayModel.handle env os m (Command.Input value)).1.1.display_selector =
        m.display_selector ∧
      (TrayModel.handle env os m (Command.Input value)).1.1.inputs = m.inputs) := by
  refine ⟨⟨?_, ?_⟩, ?_, ?_⟩
  · cases hr : env.set_input_result m.display_selector value <;>
      simp [TrayModel.handle, TrayModel.set_input, TrayModel.note_error, hr]
  · cases hr : env.set_input_result m.display_selector value <;>
      simp [TrayModel.handle, TrayModel.set_input, TrayModel.note_error, hr]
  · intro h
    simp [TrayModel.handle, TrayModel.set_input, h]
  · intro e h
    refine ⟨?_, ?_, ?_⟩ <;>
      simp [TrayModel.handle, TrayModel.set_input, TrayModel.note_error, h]

theorem handle_input_behavior_witness :
    (TrayModel.handle envFailSet osW mW (Command.Input 15)).1.2 =
      { refresh_tooltip := true } ∧
    (TrayModel.handle envFailSet osW mW (Command.Input 15)).1.1.inputs = mW.inputs ∧
    (TrayModel.handle envFailSet osW mW (Command.Input 15)).1.1.display_selector =
      mW.display_selector ∧
    (TrayModel.handle envOkBase osW mW (Command.Input 15)).1.1 =
      { mW with last_error := none } := by
  have h1 := handle_input_behavior envFailSet osW mW 15
  have h2 := handle_input_behavior envOkBase osW mW 15
  exact ⟨h1.1.1, (h1.2.2 "boom" rfl).2.2, (h1.2.2 "boom" rfl).2.1, h2.2.1 rfl⟩

/-! ## C9: handle(ToggleStartup) -/

/-- C9: if the `StartupManager` write fails during `handle(ToggleStartup)`
the in-memory `start_enabled` flag is not flipped (only `last_error` is
set, to the rendered failure context), the update requests only a tooltip
refresh, and the OS state is unchanged; on full success the flag is
flipped, `last_error` is cleared and a menu + tooltip refresh is
requested. -/
theorem handle_toggle_startup (env : Env) (os : StartupOS) (m : TrayModel) :
    (∀ e, StartupManager.set_enabled os (!m.start_enabled) = .error e →
      (TrayModel.handle env os m Command.ToggleStartup).1.1 =
        { m with last_error := some (with_context "update startup setting" e) } ∧
      (TrayModel.handle env os m Command.ToggleStartup).1.1.start_enabled =
        m.start_enabled ∧
      (TrayModel.handle env os m Command.ToggleStartup).1.2 =
        { refresh_tooltip := true } ∧
      (TrayModel.handle env os m Command.ToggleStartup).2 = os) ∧
    (∀ os1, StartupManager.set_enabled os (!m.start_enabled) = .ok os1 →
      env.patch_config (!m.start_enabled) = .ok () →
      (TrayModel.handle env os m Command.ToggleStartup).1.1 =
        { m with start_enabled := !m.start_enabled, last_error := none } ∧
      (TrayModel.handle env os m Command.ToggleStartup).1.2 =
        { refresh_menu := true, refresh_tooltip := true } ∧
      (TrayModel.handle env os m Command.ToggleStartup).2 = os1) := by
  constructor
  · intro e h
    refine ⟨?_, ?_, ?_, ?_⟩ <;>
      simp [TrayModel.handle, TrayModel.toggle_startup, TrayModel.note_error, h]
  · intro os1 hset hpatch
    refine ⟨?_, ?_, ?_⟩ <;>
      simp [TrayModel.handle, TrayModel.toggle_startup, hset, hpatch]

theorem handle_toggle_startup_witness :
    (TrayModel.handle envOkBase osFailSet mW Command.ToggleStartup).1.1.start_enabled =
      mW.start_enabled ∧
    (TrayModel.handle envOkBase osFailSet mW Command.ToggleStartup).1.1.last_error =
      some "update startup setting" ∧
    (TrayModel.handle envOkBase osFailSet mW Command.ToggleStartup).1.2 =
      { refresh_tooltip := true } ∧
    (TrayModel.handle envOkBase osW mW Command.ToggleStartup).1.1 =
      { mW with start_enabled := true, last_error := none } ∧
    (TrayModel.handle envOkBase osW mW Command.ToggleStartup).2 =
      { osW with autostart := true } := by
  have hf := handle_toggle_startup envOkBase osFailSet mW
  have hs := handle_toggle_startup envOkBase osW mW
  have hfail := hf.1 "regfail" rfl
  have hok := hs.2 { osW with autostart := true } rfl rfl
  refine ⟨hfail.2.1, ?_, hfail.2.2.1, hok.1, hok.2.2⟩
  rw [hfail.1]
  rfl

/-! ## C1: model construction and the startup preference -/

/-- Config fixture: an explicit `start_with_windows = true` preference. -/
def cfgPrefTrue : Config :=
  { start_with_windows := some true, default_display := none, inputs := [],
    monitors := [] }

/-- Config fixture: no startup preference. -/
def cfgPrefNone : Config :=
  { start_with_windows := none, default_display := none, inputs := [],
    monitors := [] }

/-- Environment whose config carries `start_with_windows = true`. -/
def envPrefTrue : Env :=
  { envOkBase with load_config := .ok (some cfgPrefTrue) }

/-- Environment whose config carries no startup preference. -/
def envPrefNone : Env :=
  { envOkBase with load_config := .ok (some cfgPrefNone) }

/-- Environment whose config load fails. -/
def envErr : Env :=
  { envOkBase with load_config := .error "config parse error" }

/-- An OS autostart state that is currently enabled. -/
def osOn : StartupOS :=
  { autostart := true }

/-- C1: evaluation of `TrayModel::new` at the failing inputs.  Config load
errors are indeed only recorded in `last_error` (construction still yields
a model, third conjunct), but `new` does NOT apply the configured startup
preference: with `start_with_windows = Some(true)` and OS autostart off,
the OS state is left untouched (nothing is written through the
`StartupManager`), and with the preference absent and OS autostart on, the
in-memory flag is `false` — the OS state was never read. -/
theorem new_does_not_apply_startup_pref :
    ((TrayModel.new envPrefTrue osW).1.start_enabled = true ∧
      (TrayModel.new envPrefTrue osW).2 = osW ∧
      (TrayModel.new envPrefTrue osW).2.autostart = false) ∧
    ((TrayModel.new envPrefNone osOn).1.start_enabled = false ∧
      (TrayModel.new envPrefNone osOn).2 = osOn) ∧
    ((TrayModel.new envErr osW).1.last_error = some "config parse error" ∧
      (TrayModel.new envErr osW).1.display_selector = "1" ∧
      (TrayModel.new envErr osW).1.inputs = default_inputs CMD_BASE_INPUT) := by
  refine ⟨⟨?_, rfl, rfl⟩, ⟨?_, rfl⟩, ?_, ?_, ?_⟩ <;> rfl
